import Mathlib

/-!
Shallow embedding of the `eui` retained-mode UI engine (`src/ui.rs`,
`src/matrix.rs`, `src/shape.rs`).  Machine floats (`f32`) are modelled by
exact rationals; the source's arithmetic is transcribed expression by
expression.  Division is the total division of `ℚ` (division by zero
yields `0`); the few places where the source can divide by zero produce a
non-finite float there, and are discussed at the claims they affect.
-/

namespace Eui

/-- `HorizontalAlignment` from `lib.rs`: `Center | Left | Right`. -/
inductive HorizontalAlignment where
  | center
  | left
  | right
deriving DecidableEq, Repr

/-- `VerticalAlignment` from `lib.rs`: `Center | Top | Bottom`. -/
inductive VerticalAlignment where
  | center
  | top
  | bottom
deriving DecidableEq, Repr

/-- `Alignment` from `lib.rs`: an independent horizontal and vertical choice. -/
structure Alignment where
  horizontal : HorizontalAlignment
  vertical : VerticalAlignment
deriving DecidableEq, Repr

/-- Modelled from the spec: the `Default` impl for `Alignment` is not under
`src/` (the code writes `.. Default::default()`); §4.3 resolves children with
a centered alignment hint, so the default is Center/Center. -/
def Alignment.default : Alignment :=
  { horizontal := .center, vertical := .center }

/-- `Matrix` from `matrix.rs`: a 3x3 matrix stored column-major;
`m i j` is `self.0[i][j]` of the source (column `i`, row `j`). -/
structure Matrix where
  m00 : ℚ
  m01 : ℚ
  m02 : ℚ
  m10 : ℚ
  m11 : ℚ
  m12 : ℚ
  m20 : ℚ
  m21 : ℚ
  m22 : ℚ
deriving DecidableEq, Repr

namespace Matrix

/-- `Matrix::identity`. -/
def identity : Matrix :=
  ⟨1, 0, 0, 0, 1, 0, 0, 0, 1⟩

/-- `Matrix::scale`. -/
def scale (factor : ℚ) : Matrix :=
  ⟨factor, 0, 0, 0, factor, 0, 0, 0, 1⟩

/-- `Matrix::scale_wh`. -/
def scale_wh (w h : ℚ) : Matrix :=
  ⟨w, 0, 0, 0, h, 0, 0, 0, 1⟩

/-- `Matrix::translate`. -/
def translate (x y : ℚ) : Matrix :=
  ⟨1, 0, 0, 0, 1, 0, x, y, 1⟩

/-- `impl ops::Mul for Matrix` from `matrix.rs`, transcribed letter by
letter (`a..i` are the entries of the result in row-major reading, and the
result stores them back column-major as `[[a,d,g],[b,e,h],[c,f,i]]`). -/
def mul (me other : Matrix) : Matrix :=
  let a := me.m00 * other.m00 + me.m10 * other.m01 + me.m20 * other.m02
  let b := me.m00 * other.m10 + me.m10 * other.m11 + me.m20 * other.m12
  let c := me.m00 * other.m20 + me.m10 * other.m21 + me.m20 * other.m22
  let d := me.m01 * other.m00 + me.m11 * other.m01 + me.m21 * other.m02
  let e := me.m01 * other.m10 + me.m11 * other.m11 + me.m21 * other.m12
  let f := me.m01 * other.m20 + me.m11 * other.m21 + me.m21 * other.m22
  let g := me.m02 * other.m00 + me.m12 * other.m01 + me.m22 * other.m02
  let h := me.m02 * other.m10 + me.m12 * other.m11 + me.m22 * other.m12
  let i := me.m02 * other.m20 + me.m12 * other.m21 + me.m22 * other.m22
  ⟨a, d, g, b, e, h, c, f, i⟩

instance : Mul Matrix := ⟨mul⟩

theorem mul_def (x y : Matrix) : x * y = mul x y := rfl

/-- `impl ops::Mul<[f32; 3]> for Matrix`: application to a homogeneous
3-vector. -/
def apply_vec (me : Matrix) (v : ℚ × ℚ × ℚ) : ℚ × ℚ × ℚ :=
  (me.m00 * v.1 + me.m10 * v.2.1 + me.m20 * v.2.2,
   me.m01 * v.1 + me.m11 * v.2.1 + me.m21 * v.2.2,
   me.m02 * v.1 + me.m12 * v.2.1 + me.m22 * v.2.2)

end Matrix

/-- `Shape` from `shape.rs`: a text or image primitive carrying a local
transform. -/
inductive Shape where
  | text (matrix : Matrix) (content : String)
  | image (matrix : Matrix) (name : String)
deriving DecidableEq, Repr

namespace Shape

/-- `Shape::apply_matrix`. -/
def apply_matrix (s : Shape) (outer : Matrix) : Shape :=
  match s with
  | .text matrix content => .text (outer * matrix) content
  | .image matrix name => .image (outer * matrix) name

/-- The matrix stored in a shape. -/
def matrixOf : Shape → Matrix
  | .text matrix _ => matrix
  | .image matrix _ => matrix

/-- The inner `test` function of `Shape::hit_test`: transform the four
corners of the local unit square (with homogeneous divide) and check the
point against each edge with a sign-consistent dot product. -/
def hit_test_matrix (matrix : Matrix) (point : ℚ × ℚ) : Bool :=
  let tl3 := matrix.apply_vec (-1, 1, 1)
  let top_left := (tl3.1 / tl3.2.2, tl3.2.1 / tl3.2.2)
  let tr3 := matrix.apply_vec (1, 1, 1)
  let top_right := (tr3.1 / tr3.2.2, tr3.2.1 / tr3.2.2)
  let bl3 := matrix.apply_vec (-1, -1, 1)
  let bot_left := (bl3.1 / bl3.2.2, bl3.2.1 / bl3.2.2)
  let br3 := matrix.apply_vec (1, -1, 1)
  let bot_right := (br3.1 / br3.2.2, br3.2.1 / br3.2.2)
  if (point.1 - top_left.1) * (top_right.1 - top_left.1) +
     (point.2 - top_left.2) * (top_right.2 - top_left.2) < 0 then false
  else if (point.1 - top_right.1) * (bot_right.1 - top_right.1) +
     (point.2 - top_right.2) * (bot_right.2 - top_right.2) < 0 then false
  else if (point.1 - bot_right.1) * (bot_left.1 - bot_right.1) +
     (point.2 - bot_right.2) * (bot_left.2 - bot_right.2) < 0 then false
  else if (point.1 - bot_left.1) * (top_left.1 - bot_left.1) +
     (point.2 - bot_left.2) * (top_left.2 - bot_left.2) < 0 then false
  else true

/-- `Shape::hit_test`. -/
def hit_test (s : Shape) (point : ℚ × ℚ) : Bool :=
  hit_test_matrix s.matrixOf point

/-- Modelled from the spec: `Shape::get_bounding_box` is called by
`ui.rs` but is not under `src/`.  §4.4 says every drawable primitive
exposes an axis-aligned bounding box in its own [-1,1] local box; the box
of the unit square under the shape's local transform (with homogeneous
divide, as in `hit_test`) is returned as (top, right, bottom, left). -/
def get_bounding_box (s : Shape) : ℚ × ℚ × ℚ × ℚ :=
  let matrix := s.matrixOf
  let tl3 := matrix.apply_vec (-1, 1, 1)
  let tl := (tl3.1 / tl3.2.2, tl3.2.1 / tl3.2.2)
  let tr3 := matrix.apply_vec (1, 1, 1)
  let tr := (tr3.1 / tr3.2.2, tr3.2.1 / tr3.2.2)
  let bl3 := matrix.apply_vec (-1, -1, 1)
  let bl := (bl3.1 / bl3.2.2, bl3.2.1 / bl3.2.2)
  let br3 := matrix.apply_vec (1, -1, 1)
  let br := (br3.1 / br3.2.2, br3.2.1 / br3.2.2)
  (max (max tl.2 tr.2) (max bl.2 br.2),
   max (max tl.1 tr.1) (max bl.1 br.1),
   min (min tl.2 tr.2) (min bl.2 br.2),
   min (min tl.1 tr.1) (min bl.1 br.1))

end Shape

/-- The predefined mouse events of `src/predefined/mod.rs`, plus a
catch-all for application-defined `Box<Any>` payloads. -/
inductive Event where
  | mouseEnterEvent
  | mouseLeaveEvent
  | mouseClick
  | custom (tag : ℕ)
deriving DecidableEq, Repr

/-- Modelled from the spec: the `EventOutcome` consumed by `ui.rs` (with
`events_for_parent`, used at `ui.rs` line 468) is not under `src/`; §3
describes it as: whether layout must be recomputed, whether the event
should also go to the parent, and additional events to forward upward. -/
structure EventOutcome where
  refresh_layout : Bool
  propagate_to_parent : Bool
  events_for_parent : List Event

/-- The `Default` impl of `EventOutcome` (`lib.rs`): no refresh, propagate
to parent, and (per the spec model) no extra events. -/
def EventOutcome.default : EventOutcome :=
  { refresh_layout := false, propagate_to_parent := true, events_for_parent := [] }

mutual

/-- The `Widget` trait object: `build_layout` as a function of the
height-per-width ratio and alignment hint, the `needs_rebuild` staleness
signal (a per-widget constant in this model), and `handle_event`
(taking the event and the originating child index). -/
inductive Widget where
  | mk (build_layout : ℚ → Alignment → Layout)
       (stale : Bool)
       (handle_event : Event → Option ℕ → EventOutcome)

/-- Modelled from the spec (and the uses in `ui.rs` / `tests/layout.rs`):
the current `Layout` enum is not under `src/` (`lib.rs` holds a superseded
variant); §3: AbsolutePositioned (transform+widget pairs), bars
(alignment + child descriptors + perpendicular-content-alignment flag),
or terminal Shapes.  The source spelling `AbsolutePositionned` is kept. -/
inductive Layout where
  | absolutePositionned (list : List (Matrix × Widget))
  | horizontalBar (alignment : HorizontalAlignment) (vertical_align : Bool)
      (children : List Child)
  | verticalBar (alignment : VerticalAlignment) (horizontal_align : Bool)
      (children : List Child)
  | shapes (list : List Shape)

/-- Modelled from the spec: the `Child` descriptor used by `ui.rs` is not
under `src/`; §3: a widget handle, a positive integer weight, an
alignment, a collapse flag and four padding fractions.  Field order as in
`tests/layout.rs`. -/
inductive Child where
  | mk (child : Widget) (weight : ℕ) (collapse : Bool) (alignment : Alignment)
       (padding_top padding_left padding_bottom padding_right : ℚ)

end

namespace Widget

def build_layout : Widget → ℚ → Alignment → Layout
  | .mk b _ _ => b

def stale : Widget → Bool
  | .mk _ s _ => s

def handle_event : Widget → Event → Option ℕ → EventOutcome
  | .mk _ _ h => h

end Widget

namespace Child

def child : Child → Widget
  | .mk c _ _ _ _ _ _ _ => c

def weight : Child → ℕ
  | .mk _ w _ _ _ _ _ _ => w

def collapse : Child → Bool
  | .mk _ _ c _ _ _ _ _ => c

def alignment : Child → Alignment
  | .mk _ _ _ a _ _ _ _ => a

def padding_top : Child → ℚ
  | .mk _ _ _ _ pt _ _ _ => pt

def padding_left : Child → ℚ
  | .mk _ _ _ _ _ pl _ _ => pl

def padding_bottom : Child → ℚ
  | .mk _ _ _ _ _ _ pb _ => pb

def padding_right : Child → ℚ
  | .mk _ _ _ _ _ _ _ pr => pr

end Child

mutual

/-- `Node` from `ui.rs`: the widget that produced the node, the children
(each with its local matrix, `Vec<(Matrix, Node)>` in the source), the
terminal shapes, the dirty flag and the four empty margins. -/
inductive Node where
  | mk (state : Widget) (children : Children) (shapes : List Shape)
       (needs_rebuild : Bool)
       (empty_top empty_right empty_bottom empty_left : ℚ)

/-- The children vector `Vec<(Matrix, Node)>`, as a cons list so that the
mutual structural recursion of the engine's tree walks stays
kernel-reducible. -/
inductive Children where
  | nil
  | cons (matrix : Matrix) (node : Node) (rest : Children)

end

namespace Node

def state : Node → Widget
  | .mk s _ _ _ _ _ _ _ => s

def children : Node → Children
  | .mk _ c _ _ _ _ _ _ => c

def shapes : Node → List Shape
  | .mk _ _ sh _ _ _ _ _ => sh

def needs_rebuild : Node → Bool
  | .mk _ _ _ nr _ _ _ _ => nr

def empty_top : Node → ℚ
  | .mk _ _ _ _ t _ _ _ => t

def empty_right : Node → ℚ
  | .mk _ _ _ _ _ r _ _ => r

def empty_bottom : Node → ℚ
  | .mk _ _ _ _ _ _ b _ => b

def empty_left : Node → ℚ
  | .mk _ _ _ _ _ _ _ l => l

end Node

namespace Children

/-- Convert a `List (Matrix × Node)` (as produced by the layout code) to
the children vector. -/
def ofList : List (Matrix × Node) → Children
  | [] => .nil
  | (m, n) :: rest => .cons m n (ofList rest)

def toList : Children → List (Matrix × Node)
  | .nil => []
  | .cons m n rest => (m, n) :: toList rest

/-- Indexing into the children vector. -/
def nth : Children → ℕ → Option (Matrix × Node)
  | .nil, _ => none
  | .cons m n _, 0 => some (m, n)
  | .cons _ _ rest, i + 1 => nth rest i

end Children

/-! ### `Node::with_layout` (ui.rs lines 215-424)

The repeated inline expressions `node.empty_* + node.empty_* -
child.padding_* - child.padding_*` of the source are factored into
`flowEmptyAmount` / `perpEmptyAmount`; "flow" is the bar's packing axis
(`y` when `vertical`), "perpendicular" the other one, as in the source's
comments. -/

/-- The empty amount of a child on the flow axis
(e.g. `node.empty_top + node.empty_bottom - child.padding_top -
child.padding_bottom` when vertical). -/
def flowEmptyAmount (vertical : Bool) (c : Child) (n : Node) : ℚ :=
  if vertical then n.empty_top + n.empty_bottom - c.padding_top - c.padding_bottom
  else n.empty_left + n.empty_right - c.padding_left - c.padding_right

/-- The empty amount of a child on the perpendicular axis. -/
def perpEmptyAmount (vertical : Bool) (c : Child) (n : Node) : ℚ :=
  if vertical then n.empty_left + n.empty_right - c.padding_left - c.padding_right
  else n.empty_top + n.empty_bottom - c.padding_top - c.padding_bottom

/-- `children.iter().fold(0, |a, b| a + b.weight)` (ui.rs line 223). -/
def weightSum (built : List (Child × Node)) : ℕ :=
  (built.map (fun cn => cn.1.weight)).foldl (· + ·) 0

/-- ui.rs lines 241-267: the required effective perpendicular content
percentage (the value wrapped in `Some` when `other_align` holds). -/
def requiredPerp (vertical : Bool) (wsi : ℚ) (built : List (Child × Node)) : ℚ :=
  let val := 1 / (built.map (fun cn =>
    let flow_percent := (cn.1.weight : ℚ) * wsi * (1/2) *
      (2 - if cn.1.collapse then flowEmptyAmount vertical cn.1 cn.2 else 0)
    let perp_percent := (1/2) * (2 - perpEmptyAmount vertical cn.1 cn.2)
    flow_percent / perp_percent)).foldl (· + ·) 0
  if 1 ≤ val then 1 else val

/-- ui.rs lines 273-285 and 327-339: the ratio to multiply the scale of a
child node with. -/
def scaleRatio (vertical : Bool) (req : Option ℚ) (c : Child) (n : Node) : ℚ :=
  match req with
  | some req_perp =>
    let effective_perp_percentage := (1/2) * (2 - perpEmptyAmount vertical c n)
    req_perp / effective_perp_percentage
  | none => 1

/-- ui.rs lines 271-298: percentage of the widget (in the flow
direction) that is effectively filled with content. -/
def flow_effective_percentage (vertical : Bool) (req : Option ℚ) (wsi : ℚ)
    (built : List (Child × Node)) : ℚ :=
  (built.map (fun cn =>
    let scale_ratio := scaleRatio vertical req cn.1 cn.2
    let flow_empty := if cn.1.collapse then flowEmptyAmount vertical cn.1 cn.2 else 0
    (2 - flow_empty) * (1/2) * (cn.1.weight : ℚ) * wsi * scale_ratio)).foldl (· + ·) 0

/-- ui.rs lines 301-313: position of the left or bottom border of the
first element. -/
def flowStart (vertical : Bool) (alignment : Alignment) (flowEff : ℚ) : ℚ :=
  if vertical then
    match alignment.vertical with
    | .bottom => -1
    | .center => -flowEff
    | .top => 1 - flowEff * 2
  else
    match alignment.horizontal with
    | .left => -1
    | .center => -flowEff
    | .right => 1 - flowEff * 2

/-- ui.rs lines 323-412: the per-child loop.  The accumulator carries
`child_num`, `flow_current_border_position` and the four `my_empty_*`
variables; the loop yields the `(total_matrix, node)` pairs and the final
margins `(top, right, bottom, left)`. -/
def layoutLoop (vertical : Bool) (req : Option ℚ) (wsi : ℚ) (num_children : ℕ) :
    List (Child × Node) → ℕ → ℚ → ℚ → ℚ → ℚ → ℚ →
    List (Matrix × Node) × ℚ × ℚ × ℚ × ℚ
  | [], _, _, eT, eR, eB, eL => ([], eT, eR, eB, eL)
  | (c, n) :: rest, child_num, pos, eT, eR, eB, eL =>
    let scale_ratio := scaleRatio vertical req c n
    let inner_padding_matrix :=
      Matrix.translate ((c.padding_left - c.padding_right) * (1/2))
                       ((c.padding_bottom - c.padding_top) * (1/2)) *
      Matrix.scale_wh (1 - (c.padding_left + c.padding_right) * (1/2))
                      (1 - (c.padding_bottom + c.padding_top) * (1/2))
    let flow_percent := (c.weight : ℚ) * wsi * (1/2) *
      (2 - if c.collapse then flowEmptyAmount vertical c n else 0)
    -- ui.rs lines 361-388: adjusting the `my_empty_*` variables
    let eT' :=
      if vertical then
        (if child_num = num_children - 1 ∧ c.collapse = false then
          (n.empty_top - c.padding_top) * (c.weight : ℚ) * wsi else eT)
      else
        (if n.empty_top - c.padding_top < eT then n.empty_top - c.padding_top else eT)
    let eR' :=
      if vertical then
        (if n.empty_right - c.padding_right < eR then n.empty_right - c.padding_right else eR)
      else
        (if child_num = num_children - 1 ∧ c.collapse = false then
          (n.empty_right - c.padding_right) * (c.weight : ℚ) * wsi else eR)
    let eB' :=
      if vertical then
        (if child_num = 0 ∧ c.collapse = false then
          (n.empty_bottom - c.padding_bottom) * (c.weight : ℚ) * wsi else eB)
      else
        (if n.empty_bottom - c.padding_bottom < eB then n.empty_bottom - c.padding_bottom else eB)
    let eL' :=
      if vertical then
        (if n.empty_left - c.padding_left < eL then n.empty_left - c.padding_left else eL)
      else
        (if child_num = 0 ∧ c.collapse = false then
          (n.empty_left - c.padding_left) * (c.weight : ℚ) * wsi else eL)
    let flow_center_position := pos + flow_percent * scale_ratio
    let pos' := pos + flow_percent * scale_ratio * 2
    let position_matrix :=
      if vertical then Matrix.translate 0 flow_center_position
      else Matrix.translate flow_center_position 0
    let scale_matrix :=
      if vertical then Matrix.scale_wh scale_ratio (scale_ratio * (c.weight : ℚ) * wsi)
      else Matrix.scale_wh (scale_ratio * (c.weight : ℚ) * wsi) scale_ratio
    let total_matrix := position_matrix * scale_matrix * inner_padding_matrix
    let restResult := layoutLoop vertical req wsi num_children rest (child_num + 1) pos' eT' eR' eB' eL'
    ((total_matrix, n) :: restResult.1, restResult.2)

/-- `Node::with_layout` after its children nodes have been built
(ui.rs lines 222-223 and 239-424); `built` is the `children` vector of
`(Child, Node)` pairs of line 226-237. -/
def with_layout_core (state : Widget) (built : List (Child × Node)) (alignment : Alignment)
    (vertical : Bool) (other_align : Bool) : Node :=
  let wsi := 1 / (weightSum built : ℚ)
  let req := if other_align then some (requiredPerp vertical wsi built) else none
  let flowEff := flow_effective_percentage vertical req wsi built
  let start := flowStart vertical alignment flowEff
  let eT0 : ℚ := if vertical then 0 else 1
  let eR0 : ℚ := if vertical then 1 else 0
  let eB0 : ℚ := if vertical then 0 else 1
  let eL0 : ℚ := if vertical then 1 else 0
  let res := layoutLoop vertical req wsi built.length built 0 start eT0 eR0 eB0 eL0
  .mk state (Children.ofList res.1) [] false res.2.1 res.2.2.1 res.2.2.2.1 res.2.2.2.2

/-- ui.rs lines 227-232: the height-per-width ratio a bar child is
resolved at. -/
def childRatio (vertical : Bool) (my_height_per_width wsi : ℚ) (c : Child) : ℚ :=
  my_height_per_width *
    (if vertical then (c.weight : ℚ) * wsi else 1 / (wsi * (c.weight : ℚ)))

/-- ui.rs lines 190-199: the fold computing a terminal node's empty
margins from its shapes' bounding boxes, starting from 1 on every edge. -/
def shapesMargins (list : List Shape) : ℚ × ℚ × ℚ × ℚ :=
  list.foldl (fun acc shape =>
    let bb := shape.get_bounding_box
    let t := 1 - bb.1
    let r := 1 - bb.2.1
    let b := bb.2.2.1 + 1
    let l := bb.2.2.2 + 1
    (if t < acc.1 then t else acc.1,
     if r < acc.2.1 then r else acc.2.1,
     if b < acc.2.2.1 then b else acc.2.2.1,
     if l < acc.2.2.2 then l else acc.2.2.2)) (1, 1, 1, 1)

/-- `Node::new` (ui.rs lines 148-213).  `fuel` bounds the recursion depth
of the widget hierarchy (the source recurses without a bound and simply
diverges on an infinitely deep hierarchy); every claim quantifies over
the fuel or uses one larger than the concrete tree's depth.  The child
building of `with_layout` (ui.rs lines 226-237) is inlined into the two
bar branches. -/
def Node.new (fuel : ℕ) (state : Widget) (my_height_per_width : ℚ)
    (alignment : Alignment) : Node :=
  match fuel with
  | 0 => .mk state .nil [] false 0 0 0 0
  | fuel + 1 =>
    match state.build_layout my_height_per_width alignment with
    | .absolutePositionned list =>
      let children_alignment : Alignment := ⟨.center, .center⟩
      let new_children := list.map (fun mw =>
        (mw.1, Node.new fuel mw.2 my_height_per_width children_alignment))
      .mk state (Children.ofList new_children) [] false 0 0 0 0
    | .horizontalBar barAlignment vertical_align children =>
      let wsi := 1 / (((children.map Child.weight).foldl (· + ·) 0 : ℕ) : ℚ)
      let built := children.map (fun c =>
        (c, Node.new fuel c.child (childRatio false my_height_per_width wsi c) c.alignment))
      with_layout_core state built ⟨barAlignment, Alignment.default.vertical⟩ false vertical_align
    | .verticalBar barAlignment horizontal_align children =>
      let wsi := 1 / (((children.map Child.weight).foldl (· + ·) 0 : ℕ) : ℚ)
      let built := children.map (fun c =>
        (c, Node.new fuel c.child (childRatio true my_height_per_width wsi c) c.alignment))
      with_layout_core state built ⟨Alignment.default.horizontal, barAlignment⟩ true horizontal_align
    | .shapes list =>
      let ms := shapesMargins list
      .mk state .nil list false ms.1 ms.2.1 ms.2.2.1 ms.2.2.2

/-! ### Tree walks: `build_shapes`, `needs_rebuild`, `mouse_update` -/

mutual

/-- `Node::build_shapes` (ui.rs lines 446-458): children's shapes first
(each composed with the child's matrix), the node's own shapes last. -/
def Node.build_shapes : Node → List Shape
  | .mk _ ch sh _ _ _ _ _ => Children.build_shapes_children ch ++ sh

/-- The `for &(ref m, ref c) in &self.children` loop of `build_shapes`. -/
def Children.build_shapes_children : Children → List Shape
  | .nil => []
  | .cons m c rest =>
    (Node.build_shapes c).map (fun s => s.apply_matrix m) ++
      Children.build_shapes_children rest

end

mutual

/-- `Node::needs_rebuild` (ui.rs lines 426-444).  The source takes `&mut
self` and clears a set flag as it returns `true`; the model returns the
mutated node next to the boolean. -/
def Node.needs_rebuild_poll : Node → Bool × Node
  | .mk w ch sh nr t r b l =>
    if nr then (true, .mk w ch sh false t r b l)
    else if w.stale then (true, .mk w ch sh nr t r b l)
    else
      let res := Children.needs_rebuild_poll_children ch
      (res.1, .mk w res.2 sh nr t r b l)

/-- The child loop of `needs_rebuild`: stop at the first child that
reports `true`, leaving the remaining children unvisited. -/
def Children.needs_rebuild_poll_children : Children → Bool × Children
  | .nil => (false, .nil)
  | .cons m c rest =>
    let res := Node.needs_rebuild_poll c
    if res.1 then (true, .cons m res.2 rest)
    else
      let rres := Children.needs_rebuild_poll_children rest
      (rres.1, .cons m res.2 rres.2)

end

/-- `Node::send_event` (ui.rs lines 461-473), split off the node: the
widget handles the event; the first component reports whether
`refresh_layout` was requested (the caller sets the node's dirty flag),
the second is the event list to propagate to the parent. -/
def Widget.send_event (w : Widget) (event : Event) (child_num : Option ℕ) :
    Bool × List Event :=
  let outcome := w.handle_event event child_num
  (outcome.refresh_layout,
   outcome.events_for_parent ++ if outcome.propagate_to_parent then [event] else [])

/-- One delivery observed during a dispatch pass: the path (child indices
from the node the pass started at) of the node whose widget received the
event, the `child_num` argument it was tagged with, and the event. -/
structure Entry where
  path : List ℕ
  child_num : Option ℕ
  event : Event
deriving DecidableEq, Repr

/-- ui.rs lines 495-499: deliver the events collected from the children
to this node's widget, tagged with the child index they came from. -/
def deliver_to_self (w : Widget) : List (Event × ℕ) → Bool × List Event × List Entry
  | [] => (false, [], [])
  | (ev, num) :: rest =>
    let one := w.send_event ev (some num)
    let more := deliver_to_self w rest
    (one.1 || more.1, one.2 ++ more.2.1, ⟨[], some num, ev⟩ :: more.2.2)

/-- ui.rs lines 502-506: whether the cursor hits one of the given
(node-local) shapes once composed with the ancestors' matrix. -/
def shapesHit (sh : List Shape) (mouse : Option (ℚ × ℚ)) (matrix : Matrix) : Bool :=
  match mouse with
  | some pt => sh.any (fun s => (s.apply_matrix matrix).hit_test pt)
  | none => false

mutual

/-- `Node::mouse_update` (ui.rs lines 477-531).  Besides the updated node
and the events to propagate to the parent, the model returns the log of
every delivery made to a widget in the subtree (an instrumentation of the
`send_event` calls; the source performs them for their side effects). -/
def Node.mouse_update (n : Node) (mouse : Option (ℚ × ℚ)) (matrix : Matrix)
    (new_mouse_down old_mouse_down : Bool) : Node × List Event × List Entry :=
  match n with
  | .mk w ch sh nr t r b l =>
    let fromChildren :=
      Children.mouse_update_children ch mouse matrix 0 new_mouse_down old_mouse_down
    let selfDeliveries := deliver_to_self w fromChildren.2.1
    let hit : Bool := shapesHit sh mouse matrix
    let hoverEvent := if hit then Event.mouseEnterEvent else Event.mouseLeaveEvent
    let hover := w.send_event hoverEvent none
    let isClick := hit && !new_mouse_down && old_mouse_down
    let click := if isClick then w.send_event Event.mouseClick none else (false, [])
    let clickEntries : List Entry := if isClick then [⟨[], none, Event.mouseClick⟩] else []
    (.mk w fromChildren.1 sh (nr || selfDeliveries.1 || hover.1 || click.1) t r b l,
     selfDeliveries.2.1 ++ hover.2 ++ click.2,
     fromChildren.2.2 ++ selfDeliveries.2.2 ++ [⟨[], none, hoverEvent⟩] ++ clickEntries)

/-- ui.rs lines 485-493: recurse into every child with the composed
matrix, collecting the events each child propagates (tagged with the
child index) and the deliveries observed in the subtrees. -/
def Children.mouse_update_children (ch : Children) (mouse : Option (ℚ × ℚ))
    (matrix : Matrix) (num : ℕ) (new_mouse_down old_mouse_down : Bool) :
    Children × List (Event × ℕ) × List Entry :=
  match ch with
  | .nil => (.nil, [], [])
  | .cons cm c rest =>
    let childRes := Node.mouse_update c mouse (matrix * cm) new_mouse_down old_mouse_down
    let restRes := Children.mouse_update_children rest mouse matrix (num + 1) new_mouse_down old_mouse_down
    (.cons cm childRes.1 restRes.1,
     childRes.2.1.map (fun e => (e, num)) ++ restRes.2.1,
     childRes.2.2.map (fun e => ⟨num :: e.path, e.child_num, e.event⟩) ++ restRes.2.2)

end

/-! ### The `Ui` struct (ui.rs lines 20-132) -/

/-- `Ui` (ui.rs lines 20-26).  The `hovering` flag is omitted: the source
never updates it (the `FIXME` at line 116) and no claim concerns it. -/
structure UiState where
  viewport_height_per_width : ℚ
  widget : Widget
  main_node : Node
  mouse_down : Bool

/-- `Ui::new` (ui.rs lines 30-47). -/
def Ui.new (fuel : ℕ) (state : Widget) (viewport : ℚ) : UiState :=
  { viewport_height_per_width := viewport
    widget := state
    main_node := Node.new fuel state viewport ⟨.center, .center⟩
    mouse_down := false }

/-- `Ui::draw` (ui.rs lines 72-87): poll `needs_rebuild` (which mutates),
rebuild the whole tree from the root when it reports `true`, then flatten
the shapes. -/
def Ui.draw (fuel : ℕ) (u : UiState) : List Shape × UiState :=
  let polled := u.main_node.needs_rebuild_poll
  if polled.1 then
    let rebuilt := Node.new fuel u.widget u.viewport_height_per_width ⟨.center, .center⟩
    (rebuilt.build_shapes, { u with main_node := rebuilt })
  else
    (polled.2.build_shapes, { u with main_node := polled.2 })

/-- `Ui::set_cursor` (ui.rs lines 111-117).  The source calls
`mouse_update(cursor, &identity, self.mouse_down.swap(down), down)`: the
swap returns the PREVIOUSLY stored flag, which lands in the
`new_mouse_down` parameter, while the fresh `down` lands in
`old_mouse_down`.  The model transcribes that call as written.  The
delivery log is returned for observation; the source drops the events the
root asks to propagate. -/
def Ui.set_cursor (u : UiState) (cursor : Option (ℚ × ℚ)) (down : Bool) :
    UiState × List Entry :=
  let res := u.main_node.mouse_update cursor Matrix.identity u.mouse_down down
  ({ u with main_node := res.1, mouse_down := down }, res.2.2)

/-- `Ui::rebuild` (ui.rs lines 51-62). -/
def Ui.rebuild (fuel : ℕ) (u : UiState) : UiState :=
  { u with main_node := Node.new fuel u.widget u.viewport_height_per_width ⟨.center, .center⟩ }

/-- `Ui::set_viewport_height_per_width` (ui.rs lines 91-105). -/
def Ui.set_viewport (fuel : ℕ) (u : UiState) (value : ℚ) : UiState :=
  if u.viewport_height_per_width = value then u
  else Ui.rebuild fuel { u with viewport_height_per_width := value }

/-! ### Observations used to state the claims -/

mutual

/-- Whether some node of the tree has its dirty flag set. -/
def Node.anyDirty : Node → Bool
  | .mk _ ch _ nr _ _ _ _ => nr || Children.anyDirty_children ch

def Children.anyDirty_children : Children → Bool
  | .nil => false
  | .cons _ c rest => Node.anyDirty c || Children.anyDirty_children rest

end

mutual

/-- Whether some node's widget reports staleness (`needs_rebuild()` on
the widget). -/
def Node.anyStale : Node → Bool
  | .mk w ch _ _ _ _ _ _ => w.stale || Children.anyStale_children ch

def Children.anyStale_children : Children → Bool
  | .nil => false
  | .cons _ c rest => Node.anyStale c || Children.anyStale_children rest

end

/-- Look up the subnode at a path of child indices, composing the local
matrices along the way exactly as `mouse_update` does (ancestors'
composed matrix on the left). -/
def Node.getAt : Node → List ℕ → Matrix → Option (Matrix × Node)
  | n, [], matrix => some (matrix, n)
  | n, i :: p, matrix =>
    match n.children.nth i with
    | some (cm, c) => c.getAt p (matrix * cm)
    | none => none

/-- The events a dispatch pass delivered to the node at path `p` itself
(`child_num = None` deliveries; deliveries tagged with `Some i` carry a
child's propagated event, not an event addressed to the node). -/
def noneEntriesAt (log : List Entry) (p : List ℕ) : List Event :=
  log.filterMap (fun e => if e.path = p ∧ e.child_num = none then some e.event else none)

/-- Hover events among the predefined mouse events. -/
def isHoverEvent : Event → Bool
  | .mouseEnterEvent => true
  | .mouseLeaveEvent => true
  | _ => false

/-- The events ui.rs lines 510-528 send to a node's own widget during one
dispatch pass: one hover event (enter iff hit), then a click when hit
with `!new_mouse_down && old_mouse_down`. -/
def engineEvents (sh : List Shape) (mouse : Option (ℚ × ℚ)) (matrix : Matrix)
    (new_mouse_down old_mouse_down : Bool) : List Event :=
  let hit := shapesHit sh mouse matrix
  (if hit then [Event.mouseEnterEvent] else [Event.mouseLeaveEvent]) ++
    (if hit && !new_mouse_down && old_mouse_down then [Event.mouseClick] else [])

/-- The flow-axis fraction each bar child occupies: ui.rs lines 391-392
advance the running border by `flow_percent * scale_ratio * 2.0` on the
flow axis (whose total length is 2), so a child occupies the fraction
`flow_percent * scale_ratio`. -/
def occupiedFlowFractions (vertical : Bool) (req : Option ℚ) (wsi : ℚ)
    (built : List (Child × Node)) : List ℚ :=
  built.map (fun cn =>
    let scale_ratio := scaleRatio vertical req cn.1 cn.2
    let flow_percent := (cn.1.weight : ℚ) * wsi * (1/2) *
      (2 - if cn.1.collapse then flowEmptyAmount vertical cn.1 cn.2 else 0)
    flow_percent * scale_ratio)

/-- The occupied flow fractions of a bar as `with_layout` computes them,
with `weight_sum_inverse` and the optional required perpendicular
percentage derived from the same child list (ui.rs lines 222-267). -/
def barOccupiedFractions (vertical other_align : Bool)
    (built : List (Child × Node)) : List ℚ :=
  let wsi := 1 / (weightSum built : ℚ)
  let req := if other_align then some (requiredPerp vertical wsi built) else none
  occupiedFlowFractions vertical req wsi built

/-- Whether a layout is the `Shapes` variant. -/
def Layout.isShapes : Layout → Bool
  | .shapes _ => true
  | _ => false

/-- Whether a layout carries an empty child list (no widgets to recurse
into). -/
def Layout.childListEmpty : Layout → Prop
  | .shapes _ => True
  | .absolutePositionned list => list = []
  | .horizontalBar _ _ children => children = []
  | .verticalBar _ _ children => children = []

/-- Claim C2's own reading of the bar's flow-axis start margin: the
corresponding empty margin of the FIRST NON-COLLAPSED child, scaled by
that child's weight divided by the weight sum.  (Definition follows the
spec's words, for comparison with `with_layout_core`.) -/
def specFlowStartMargin (vertical : Bool) (built : List (Child × Node)) : ℚ :=
  let wsi := 1 / (weightSum built : ℚ)
  match built.find? (fun cn => !cn.1.collapse) with
  | some (c, n) => (if vertical then n.empty_bottom else n.empty_left) * (c.weight : ℚ) * wsi
  | none => 0

/-! ### Concrete fixtures (widgets and trees used by witnesses and
counterexamples) -/

/-- The default `Widget::handle_event` (ui.rs / lib.rs): return
`Default::default()`. -/
def defaultHandler : Event → Option ℕ → EventOutcome := fun _ _ => EventOutcome.default

/-- The `FullWidget` of `tests/layout.rs`: one image primitive with an
identity local transform. -/
def fullWidget : Widget :=
  .mk (fun _ _ => .shapes [Shape.image Matrix.identity ""]) false defaultHandler

/-- A non-collapsed, weight-1, zero-padding child descriptor, as built in
`tests/layout.rs`. -/
def unitChild (w : Widget) : Child :=
  .mk w 1 false Alignment.default 0 0 0 0

/-- The `TestedWidget` of `tests/layout.rs::horizontal_split_two`: a
horizontal bar of two equal-weight non-collapsed children. -/
def testedWidget : Widget :=
  .mk (fun _ _ => .horizontalBar .center false [unitChild fullWidget, unitChild fullWidget])
      false defaultHandler

/-- The `Ui` of `tests/layout.rs::horizontal_split_two` (viewport ratio 1). -/
def testUi : UiState := Ui.new 2 testedWidget 1

/-- A `Ui` whose root widget is a single full-viewport image shape. -/
def leafUi : UiState := Ui.new 1 fullWidget 1

/-- §8 scenario, first sample: cursor hovering the shape at the origin,
button held down (the stored previous state being "up"). -/
def pressStep : UiState × List Entry := Ui.set_cursor leafUi (some (0, 0)) true

/-- §8 scenario, second sample: still hovering, button released. -/
def releaseStep : UiState × List Entry := Ui.set_cursor pressStep.1 (some (0, 0)) false

/-- A widget that permanently reports staleness through
`needs_rebuild()` while producing one image shape. -/
def staleWidget : Widget :=
  .mk (fun _ _ => .shapes [Shape.image Matrix.identity ""]) true defaultHandler

/-- A `Ui` holding `staleWidget` whose current tree is an empty terminal
node: no node is dirty, but the widget reports staleness, and the stored
tree does not show the widget's shape yet. -/
def staleUi : UiState :=
  { viewport_height_per_width := 1
    widget := staleWidget
    main_node := .mk staleWidget .nil [] false 1 1 1 1
    mouse_down := false }

/-- A terminal node with given empty margins (for feeding
`with_layout_core` directly). -/
def plainNode (t r b l : ℚ) : Node :=
  .mk fullWidget .nil [] false t r b l

/-- A collapsed child whose node has no empty margin at all, followed by
a non-collapsed child whose node leaves half of its left edge empty:
the bar's first child is collapsed, its first NON-collapsed child is the
second one. -/
def builtFirstCollapsed : List (Child × Node) :=
  [(.mk fullWidget 1 true Alignment.default 0 0 0 0, plainNode 0 0 0 0),
   (.mk fullWidget 1 false Alignment.default 0 0 0 0, plainNode 0 0 0 (1/2))]

/-- One non-collapsed, zero-padding, weight-1 child whose node is
entirely empty (margins 1 on every edge), e.g. a `predefined::Empty`
child: its effective perpendicular content percentage is zero. -/
def builtEmptyChild : List (Child × Node) :=
  [(.mk fullWidget 1 false Alignment.default 0 0 0 0, plainNode 1 1 1 1)]

/-- A two-child bar for exercising the margin formulas: both
non-collapsed, weights 1 and 3, distinct margins. -/
def builtTwoPlain : List (Child × Node) :=
  [(.mk fullWidget 1 false Alignment.default 0 0 0 0, plainNode (1/4) (1/8) (1/16) (1/2)),
   (.mk fullWidget 3 false Alignment.default 0 0 0 0, plainNode (1/3) (1/5) (1/7) (1/9))]

/-- A widget answering `AbsolutePositionned(vec![])`: it is not the
`Shapes` variant, yet yields a node without children. -/
def absEmptyWidget : Widget :=
  .mk (fun _ _ => .absolutePositionned []) false defaultHandler

/-- A bar whose single child collapses (with margins 1/2 everywhere). -/
def builtAllCollapsed : List (Child × Node) :=
  [(.mk fullWidget 1 true Alignment.default 0 0 0 0, plainNode (1/2) (1/2) (1/2) (1/2))]

/-- A `Ui` holding `fullWidget` whose stored (empty) tree carries a
pending dirty flag — as after an event handler requested a layout
refresh — while no widget reports staleness. -/
def dirtyUi : UiState :=
  { viewport_height_per_width := 1
    widget := fullWidget
    main_node := .mk fullWidget .nil [] true 1 1 1 1
    mouse_down := false }

end Eui

namespace Eui

/-! ## Theorems -/

set_option maxHeartbeats 2000000 in
/-- C1: the §8 scenario evaluated on the code.  The first sample (button
newly held while hovering) already delivers a click to the hovered
widget, and the second sample (button released while still hovering)
delivers only the hover event and NO click — the opposite of the claim,
which ties the click to the held-to-released transition.  The cause is
the call `mouse_update(cursor, .., self.mouse_down.swap(down), down)` at
ui.rs line 113-114: the swap's result (the PREVIOUS state) is passed as
the `new_mouse_down` parameter and the fresh `down` as `old_mouse_down`,
inverting the transition test `hit && !new_mouse_down && old_mouse_down`
of line 523 relative to the parameter names. -/
theorem claim_C1_clicks_fire_on_press_not_release :
    pressStep.2 = [⟨[], none, Event.mouseEnterEvent⟩, ⟨[], none, Event.mouseClick⟩] ∧
    releaseStep.2 = [⟨[], none, Event.mouseEnterEvent⟩] := by
  constructor <;>
  norm_num [pressStep, releaseStep, leafUi, Ui.set_cursor, Ui.new, fullWidget,
    Node.new, Widget.build_layout, Widget.stale, Widget.handle_event,
    Node.mouse_update, Children.mouse_update_children, deliver_to_self,
    Widget.send_event, EventOutcome.default, defaultHandler, shapesHit,
    shapesMargins, Shape.get_bounding_box, Shape.matrixOf, Matrix.apply_vec,
    Shape.apply_matrix, Shape.hit_test, Shape.hit_test_matrix,
    Matrix.mul_def, Matrix.mul, Matrix.identity, Children.ofList]

set_option maxHeartbeats 2000000 in
/-- C4: the `horizontal_split_two` scenario. A horizontal bar with two
equal-weight, non-collapsed, zero-padding children, each emitting one
image primitive with an identity local transform, at viewport ratio 1
and Center alignment: `draw()` returns exactly the two image primitives
with absolute transforms translate(-1/2,0)*scale(1/2,1) and
translate(1/2,0)*scale(1/2,1), in left-to-right order. -/
theorem claim_C4_horizontal_split_two :
    (Ui.draw 2 testUi).1 =
      [Shape.image (Matrix.translate (-(1/2)) 0 * Matrix.scale_wh (1/2) 1) "",
       Shape.image (Matrix.translate (1/2) 0 * Matrix.scale_wh (1/2) 1) ""] := by
  norm_num [Ui.draw, Ui.new, testUi, testedWidget, fullWidget, unitChild, Node.new,
    Node.needs_rebuild_poll, Children.needs_rebuild_poll_children, Widget.stale,
    Widget.build_layout, Node.build_shapes, Children.build_shapes_children,
    Children.ofList, with_layout_core, layoutLoop, weightSum, requiredPerp,
    flow_effective_percentage, flowStart, scaleRatio, flowEmptyAmount, perpEmptyAmount,
    shapesMargins, Shape.get_bounding_box, Shape.matrixOf, Matrix.apply_vec,
    childRatio, Child.weight, Child.child, Child.collapse, Child.alignment,
    Child.padding_top, Child.padding_left, Child.padding_bottom, Child.padding_right,
    Node.shapes, Node.children, Node.state, Node.needs_rebuild, Node.empty_top,
    Node.empty_right, Node.empty_bottom, Node.empty_left,
    Matrix.mul_def, Matrix.mul, Matrix.identity, Matrix.translate, Matrix.scale_wh,
    Shape.apply_matrix, Alignment.default]

/-! ### Projection helpers -/

theorem Node.empty_top_mk (w ch sh nr) (t r b l : ℚ) :
    (Node.mk w ch sh nr t r b l).empty_top = t := rfl

theorem Node.empty_right_mk (w ch sh nr) (t r b l : ℚ) :
    (Node.mk w ch sh nr t r b l).empty_right = r := rfl

theorem Node.empty_bottom_mk (w ch sh nr) (t r b l : ℚ) :
    (Node.mk w ch sh nr t r b l).empty_bottom = b := rfl

theorem Node.empty_left_mk (w ch sh nr) (t r b l : ℚ) :
    (Node.mk w ch sh nr t r b l).empty_left = l := rfl

/-! ### C10: shape flattening order -/

theorem Children.build_shapes_join : ∀ ch : Children,
    Children.build_shapes_children ch =
      (ch.toList.map
        (fun mc => (Node.build_shapes mc.2).map (fun s => s.apply_matrix mc.1))).flatten
  | .nil => by simp [Children.build_shapes_children, Children.toList]
  | .cons m c rest => by
      simp [Children.build_shapes_children, Children.toList,
            Children.build_shapes_join rest]

/-- C10: in the list `build_shapes` returns (the list `draw()` yields for
the root), every node's output is the concatenation, in child-list order,
of its children's transformed shape groups, followed by the node's own
terminal shapes — so a parent's own shapes sit after (on top of) all of
its descendants' shapes. -/
theorem claim_C10_children_shapes_precede_own (n : Node) :
    n.build_shapes =
      (n.children.toList.map
        (fun mc => (Node.build_shapes mc.2).map (fun s => s.apply_matrix mc.1))).flatten
      ++ n.shapes := by
  cases n with
  | mk w ch sh nr t r b l =>
      simp [Node.build_shapes, Node.children, Node.shapes, Children.build_shapes_join]

/-! ### Dirty polling (`needs_rebuild`): C5 and C8 -/

mutual

theorem poll_spec_node : ∀ n : Node,
    (Node.needs_rebuild_poll n).1 = (Node.anyDirty n || Node.anyStale n)
  | .mk w ch sh nr t r b l => by
      have hch := poll_spec_children ch
      cases nr <;> cases hw : w.stale <;>
        simp [Node.needs_rebuild_poll, Node.anyDirty, Node.anyStale, hw, hch]

theorem poll_spec_children : ∀ ch : Children,
    (Children.needs_rebuild_poll_children ch).1 =
      (Children.anyDirty_children ch || Children.anyStale_children ch)
  | .nil => by
      simp [Children.needs_rebuild_poll_children, Children.anyDirty_children,
        Children.anyStale_children]
  | .cons m c rest => by
      have hc := poll_spec_node c
      have hr := poll_spec_children rest
      simp only [Children.needs_rebuild_poll_children, Children.anyDirty_children,
        Children.anyStale_children, hc, hr]
      cases Node.anyDirty c <;> cases Node.anyStale c <;>
        cases Children.anyDirty_children rest <;>
        cases Children.anyStale_children rest <;> simp

end

mutual

theorem poll_unchanged_node : ∀ n : Node,
    (Node.needs_rebuild_poll n).1 = false → (Node.needs_rebuild_poll n).2 = n
  | .mk w ch sh nr t r b l => by
      cases nr with
      | true => intro h; simp [Node.needs_rebuild_poll] at h
      | false =>
        cases hw : w.stale with
        | true => intro h; simp [Node.needs_rebuild_poll, hw] at h
        | false =>
          intro h
          simp [Node.needs_rebuild_poll, hw] at h ⊢
          exact poll_unchanged_children ch h

theorem poll_unchanged_children : ∀ ch : Children,
    (Children.needs_rebuild_poll_children ch).1 = false →
      (Children.needs_rebuild_poll_children ch).2 = ch
  | .nil => by intro h; simp [Children.needs_rebuild_poll_children]
  | .cons m c rest => by
      intro h
      cases hpc : (Node.needs_rebuild_poll c).1 with
      | true => simp [Children.needs_rebuild_poll_children, hpc] at h
      | false =>
        simp [Children.needs_rebuild_poll_children, hpc] at h ⊢
        exact ⟨poll_unchanged_node c hpc, poll_unchanged_children rest h⟩

end

/-- C5: for every `Ui` state in which no widget reports staleness (and,
widget state being immutable values in this model, nothing happens
between the calls), two consecutive `draw()` calls return identical
shape lists — whether or not some node's dirty flag is pending.  A
pending flag makes the first call rebuild from the unchanged widget
state and viewport, and the second call then draws that same tree
(rebuilding it identically if polled dirty again). -/
theorem claim_C5_draw_idempotent_when_clean (fuel : ℕ) (u : UiState)
    (_hs : u.main_node.anyStale = false) :
    (Ui.draw fuel u).1 = (Ui.draw fuel (Ui.draw fuel u).2).1 := by
  cases hpoll : (Node.needs_rebuild_poll u.main_node).1 with
  | false =>
      have h2 := poll_unchanged_node _ hpoll
      have hdraw : Ui.draw fuel u = (u.main_node.build_shapes, u) := by
        simp [Ui.draw, hpoll, h2]
      have h3 : (Ui.draw fuel u).2 = u := by rw [hdraw]
      rw [h3]
  | true =>
      have hdraw1 : Ui.draw fuel u =
          ((Node.new fuel u.widget u.viewport_height_per_width
              ⟨.center, .center⟩).build_shapes,
           { u with main_node := (Node.new fuel u.widget u.viewport_height_per_width ⟨.center, .center⟩) }) := by
        simp [Ui.draw, hpoll]
      rw [hdraw1]
      cases hpoll2 : (Node.needs_rebuild_poll
          (Node.new fuel u.widget u.viewport_height_per_width ⟨.center, .center⟩)).1 with
      | false =>
          have h2 := poll_unchanged_node _ hpoll2
          simp [Ui.draw, hpoll2, h2]
      | true =>
          simp [Ui.draw, hpoll2]

/-- C5 witness: a `Ui` with a pending dirty flag and no stale widget,
evaluated concretely — the region the claim covers beyond the clean
case. -/
theorem claim_C5_witness :
    (Ui.draw 1 dirtyUi).1 = (Ui.draw 1 (Ui.draw 1 dirtyUi).2).1 :=
  claim_C5_draw_idempotent_when_clean 1 dirtyUi rfl

/-! ### Rebuilt trees carry no dirty flag: C8 -/

theorem Children.anyDirty_ofList : ∀ L : List (Matrix × Node),
    Children.anyDirty_children (Children.ofList L) = L.any (fun mc => mc.2.anyDirty)
  | [] => by simp [Children.ofList, Children.anyDirty_children]
  | (m, n) :: rest => by
      simp [Children.ofList, Children.anyDirty_children, Children.anyDirty_ofList rest]

theorem layoutLoop_map_snd (v : Bool) (req : Option ℚ) (wsi : ℚ) (N : ℕ) :
    ∀ (l : List (Child × Node)) (k : ℕ) (pos eT eR eB eL : ℚ),
      (layoutLoop v req wsi N l k pos eT eR eB eL).1.map Prod.snd = l.map Prod.snd
  | [], _, _, _, _, _, _ => by simp [layoutLoop]
  | (c, n) :: rest, k, pos, eT, eR, eB, eL => by
      simp only [layoutLoop, List.map_cons]
      rw [layoutLoop_map_snd v req wsi N rest]

theorem with_layout_core_anyDirty (state : Widget) (built : List (Child × Node))
    (al : Alignment) (v oa : Bool) (h : ∀ cn ∈ built, (Prod.snd cn).anyDirty = false) :
    (with_layout_core state built al v oa).anyDirty = false := by
  simp only [with_layout_core, Node.anyDirty, Children.anyDirty_ofList, Bool.false_or]
  rw [List.any_eq_false]
  intro mc hmc
  have hsnd : mc.2 ∈ (layoutLoop v _ _ _ built 0 _ _ _ _ _).1.map Prod.snd :=
    List.mem_map_of_mem Prod.snd hmc
  rw [layoutLoop_map_snd] at hsnd
  simp only [List.mem_map] at hsnd
  obtain ⟨cn, hcn, hceq⟩ := hsnd
  simpa [← hceq] using h cn hcn

theorem Node.new_anyDirty : ∀ (fuel : ℕ) (w : Widget) (hpw : ℚ) (a : Alignment),
    (Node.new fuel w hpw a).anyDirty = false
  | 0, w, hpw, a => by simp [Node.new, Node.anyDirty, Children.anyDirty_children]
  | fuel + 1, w, hpw, a => by
      cases hl : w.build_layout hpw a with
      | absolutePositionned list =>
          simp only [Node.new, hl, Node.anyDirty, Children.anyDirty_ofList, Bool.false_or]
          rw [List.any_eq_false]
          intro mc hmc
          simp only [List.mem_map] at hmc
          obtain ⟨mw, _, rfl⟩ := hmc
          simp [Node.new_anyDirty fuel]
      | horizontalBar al va children =>
          simp only [Node.new, hl]
          apply with_layout_core_anyDirty
          intro cn hcn
          simp only [List.mem_map] at hcn
          obtain ⟨c, _, rfl⟩ := hcn
          simp [Node.new_anyDirty fuel]
      | verticalBar al ha children =>
          simp only [Node.new, hl]
          apply with_layout_core_anyDirty
          intro cn hcn
          simp only [List.mem_map] at hcn
          obtain ⟨c, _, rfl⟩ := hcn
          simp [Node.new_anyDirty fuel]
      | shapes list => simp [Node.new, hl, Node.anyDirty, Children.anyDirty_children]

set_option maxHeartbeats 1000000 in
/-- C8 counterexample: the claim's closing clause "if no node is dirty,
the tree is left untouched" fails when a widget reports staleness while
no dirty flag is set: `staleUi` has no dirty node, yet `draw()` replaces
its (empty) tree with one showing the widget's shape. -/
theorem claim_C8_stale_untouched_counterexample :
    staleUi.main_node.anyDirty = false ∧
    (Ui.draw 1 staleUi).2.main_node.shapes ≠ staleUi.main_node.shapes := by
  constructor
  · rfl
  · have hpoll : (Node.needs_rebuild_poll staleUi.main_node).1 = true := rfl
    simp only [Ui.draw, hpoll, if_true]
    norm_num [staleUi, staleWidget, Node.new, Widget.build_layout,
      shapesMargins, Shape.get_bounding_box, Shape.matrixOf, Matrix.apply_vec,
      Matrix.identity, Node.shapes]

/-- C8 (amended): if some node is dirty or some widget reports
staleness, `draw()` replaces the whole tree by one rebuilt from the root
out of the current widget state, and the resulting tree carries no dirty
flag anywhere; if neither holds, `draw()` leaves the `Ui` untouched. -/
theorem claim_C8_rebuild_on_dirty_or_stale (fuel : ℕ) (u : UiState) :
    ((u.main_node.anyDirty || u.main_node.anyStale) = true →
      (Ui.draw fuel u).2.main_node =
        Node.new fuel u.widget u.viewport_height_per_width ⟨.center, .center⟩ ∧
      (Ui.draw fuel u).2.main_node.anyDirty = false) ∧
    ((u.main_node.anyDirty || u.main_node.anyStale) = false →
      (Ui.draw fuel u).2 = u) := by
  constructor
  · intro h
    have hpoll : (Node.needs_rebuild_poll u.main_node).1 = true := by
      rw [poll_spec_node]; exact h
    constructor
    · simp [Ui.draw, hpoll]
    · simp [Ui.draw, hpoll, Node.new_anyDirty]
  · intro h
    have hpoll : (Node.needs_rebuild_poll u.main_node).1 = false := by
      rw [poll_spec_node]; exact h
    have h2 := poll_unchanged_node _ hpoll
    simp [Ui.draw, hpoll, h2]

/-- C8 witness: the stale `Ui` is rebuilt from the widget state with all
flags clear, and the clean `Ui` is left untouched. -/
theorem claim_C8_witness :
    ((Ui.draw 1 staleUi).2.main_node = Node.new 1 staleWidget 1 ⟨.center, .center⟩ ∧
     (Ui.draw 1 staleUi).2.main_node.anyDirty = false) ∧
    (Ui.draw 1 leafUi).2 = leafUi :=
  ⟨(claim_C8_rebuild_on_dirty_or_stale 1 staleUi).1 rfl,
   (claim_C8_rebuild_on_dirty_or_stale 1 leafUi).2 rfl⟩

/-! ### C9: childless nodes and the Shapes variant -/

theorem Children.ofList_eq_nil : ∀ L : List (Matrix × Node),
    Children.ofList L = Children.nil ↔ L = []
  | [] => by simp [Children.ofList]
  | (m, n) :: rest => by simp [Children.ofList]

/-- C9 counterexample: a widget returning `AbsolutePositionned(vec![])`
yields a node without children although it did not return the `Shapes`
variant, so "no children iff the widget returned Shapes" fails. -/
theorem claim_C9_absolute_empty_counterexample :
    (Node.new 1 absEmptyWidget 1 Alignment.default).children = Children.nil ∧
    (absEmptyWidget.build_layout 1 Alignment.default).isShapes = false :=
  ⟨rfl, rfl⟩

/-- C9 (amended): a node built by `Node::new` has no children iff its
widget returned the Shapes variant or returned an AbsolutePositionned or
bar layout whose child list is empty. -/
theorem claim_C9_no_children_iff_shapes_or_empty (fuel : ℕ) (w : Widget)
    (hpw : ℚ) (a : Alignment) :
    (Node.new (fuel + 1) w hpw a).children = Children.nil ↔
      (w.build_layout hpw a).childListEmpty := by
  cases hl : w.build_layout hpw a with
  | absolutePositionned list =>
      simp [Node.new, hl, Layout.childListEmpty, Node.children, Children.ofList_eq_nil]
  | horizontalBar al va children =>
      cases children with
      | nil => simp [Node.new, hl, Layout.childListEmpty, with_layout_core, layoutLoop,
          Node.children, Children.ofList]
      | cons c cs => simp [Node.new, hl, Layout.childListEmpty, with_layout_core, layoutLoop,
          Node.children, Children.ofList]
  | verticalBar al ha children =>
      cases children with
      | nil => simp [Node.new, hl, Layout.childListEmpty, with_layout_core, layoutLoop,
          Node.children, Children.ofList]
      | cons c cs => simp [Node.new, hl, Layout.childListEmpty, with_layout_core, layoutLoop,
          Node.children, Children.ofList]
  | shapes list => simp [Node.new, hl, Layout.childListEmpty, Node.children]

/-! ### C2: the bar's reported empty margins -/

theorem minIf (a x : ℚ) : (if x < a then x else a) = min a x := by
  rw [min_def]; split <;> split <;> first | rfl | linarith

theorem loop_top_h (req : Option ℚ) (wsi : ℚ) (N : ℕ) :
    ∀ (l : List (Child × Node)) (k : ℕ) (pos eT eR eB eL : ℚ),
      (layoutLoop false req wsi N l k pos eT eR eB eL).2.1 =
        (l.map (fun cn => cn.2.empty_top - cn.1.padding_top)).foldl min eT
  | [], _, _, _, _, _, _ => by simp [layoutLoop]
  | (c, n) :: rest, k, pos, eT, eR, eB, eL => by
      simp only [layoutLoop, minIf]
      rw [loop_top_h req wsi N rest (k + 1)]
      simp

theorem loop_bottom_h (req : Option ℚ) (wsi : ℚ) (N : ℕ) :
    ∀ (l : List (Child × Node)) (k : ℕ) (pos eT eR eB eL : ℚ),
      (layoutLoop false req wsi N l k pos eT eR eB eL).2.2.2.1 =
        (l.map (fun cn => cn.2.empty_bottom - cn.1.padding_bottom)).foldl min eB
  | [], _, _, _, _, _, _ => by simp [layoutLoop]
  | (c, n) :: rest, k, pos, eT, eR, eB, eL => by
      simp only [layoutLoop, minIf]
      rw [loop_bottom_h req wsi N rest (k + 1)]
      simp

theorem loop_left_h (req : Option ℚ) (wsi : ℚ) (N : ℕ) :
    ∀ (l : List (Child × Node)) (k : ℕ) (pos eT eR eB eL : ℚ),
      (layoutLoop false req wsi N l k pos eT eR eB eL).2.2.2.2 =
        (match l with
          | [] => eL
          | (c, n) :: _ =>
            if k = 0 ∧ c.collapse = false then
              (n.empty_left - c.padding_left) * (c.weight : ℚ) * wsi else eL)
  | [], _, _, _, _, _, _ => by simp [layoutLoop]
  | (c, n) :: rest, k, pos, eT, eR, eB, eL => by
      simp only [layoutLoop]
      rw [loop_left_h req wsi N rest (k + 1)]
      cases rest <;> simp

theorem loop_right_h (req : Option ℚ) (wsi : ℚ) (N : ℕ) :
    ∀ (l : List (Child × Node)) (k : ℕ) (pos eT eR eB eL : ℚ), k + l.length = N →
      (layoutLoop false req wsi N l k pos eT eR eB eL).2.2.1 =
        (match l.getLast? with
          | none => eR
          | some (c, n) =>
            if c.collapse = false then
              (n.empty_right - c.padding_right) * (c.weight : ℚ) * wsi else eR)
  | [], _, _, _, _, _, _, _ => by simp [layoutLoop]
  | (c, n) :: rest, k, pos, eT, eR, eB, eL, hinv => by
      have hinv' : (k + 1) + rest.length = N := by simp at hinv; omega
      simp only [layoutLoop]
      rw [loop_right_h req wsi N rest (k + 1) _ _ _ _ _ hinv']
      cases rest with
      | nil =>
          have hk : k = N - 1 := by simp at hinv'; omega
          simp [hk]
      | cons hd tl =>
          have hk : ¬ (k = N - 1) := by simp at hinv'; omega
          simp only [List.getLast?_cons_cons]
          simp [hk]

theorem loop_left_v (req : Option ℚ) (wsi : ℚ) (N : ℕ) :
    ∀ (l : List (Child × Node)) (k : ℕ) (pos eT eR eB eL : ℚ),
      (layoutLoop true req wsi N l k pos eT eR eB eL).2.2.2.2 =
        (l.map (fun cn => cn.2.empty_left - cn.1.padding_left)).foldl min eL
  | [], _, _, _, _, _, _ => by simp [layoutLoop]
  | (c, n) :: rest, k, pos, eT, eR, eB, eL => by
      simp only [layoutLoop, minIf]
      rw [loop_left_v req wsi N rest (k + 1)]
      simp

theorem loop_right_v (req : Option ℚ) (wsi : ℚ) (N : ℕ) :
    ∀ (l : List (Child × Node)) (k : ℕ) (pos eT eR eB eL : ℚ),
      (layoutLoop true req wsi N l k pos eT eR eB eL).2.2.1 =
        (l.map (fun cn => cn.2.empty_right - cn.1.padding_right)).foldl min eR
  | [], _, _, _, _, _, _ => by simp [layoutLoop]
  | (c, n) :: rest, k, pos, eT, eR, eB, eL => by
      simp only [layoutLoop, minIf]
      rw [loop_right_v req wsi N rest (k + 1)]
      simp

theorem loop_bottom_v (req : Option ℚ) (wsi : ℚ) (N : ℕ) :
    ∀ (l : List (Child × Node)) (k : ℕ) (pos eT eR eB eL : ℚ),
      (layoutLoop true req wsi N l k pos eT eR eB eL).2.2.2.1 =
        (match l with
          | [] => eB
          | (c, n) :: _ =>
            if k = 0 ∧ c.collapse = false then
              (n.empty_bottom - c.padding_bottom) * (c.weight : ℚ) * wsi else eB)
  | [], _, _, _, _, _, _ => by simp [layoutLoop]
  | (c, n) :: rest, k, pos, eT, eR, eB, eL => by
      simp only [layoutLoop]
      rw [loop_bottom_v req wsi N rest (k + 1)]
      cases rest <;> simp

theorem loop_top_v (req : Option ℚ) (wsi : ℚ) (N : ℕ) :
    ∀ (l : List (Child × Node)) (k : ℕ) (pos eT eR eB eL : ℚ), k + l.length = N →
      (layoutLoop true req wsi N l k pos eT eR eB eL).2.1 =
        (match l.getLast? with
          | none => eT
          | some (c, n) =>
            if c.collapse = false then
              (n.empty_top - c.padding_top) * (c.weight : ℚ) * wsi else eT)
  | [], _, _, _, _, _, _, _ => by simp [layoutLoop]
  | (c, n) :: rest, k, pos, eT, eR, eB, eL, hinv => by
      have hinv' : (k + 1) + rest.length = N := by simp at hinv; omega
      simp only [layoutLoop]
      rw [loop_top_v req wsi N rest (k + 1) _ _ _ _ _ hinv']
      cases rest with
      | nil =>
          have hk : k = N - 1 := by simp at hinv'; omega
          simp [hk]
      | cons hd tl =>
          have hk : ¬ (k = N - 1) := by simp at hinv'; omega
          simp only [List.getLast?_cons_cons]
          simp [hk]

/-- C2 (amended): for every bar, the flow-axis start margin comes from
the FIRST child when that child is non-collapsed (padding-adjusted and
scaled by its weight share) and is 0 otherwise — not from the first
non-collapsed child; symmetrically the flow-axis end margin comes from
the LAST child; the perpendicular margins are the minimum, capped at 1,
of the children's padding-adjusted margins; and a bar all of whose
children collapse reports zero flow-axis margins. -/
theorem claim_C2_bar_margin_formulas (state : Widget) (built : List (Child × Node))
    (al : Alignment) (oa : Bool) :
    ((with_layout_core state built al false oa).empty_left =
      (match built with
        | [] => 0
        | (c, n) :: _ =>
          if c.collapse = false then
            (n.empty_left - c.padding_left) * (c.weight : ℚ) * (1 / (weightSum built : ℚ))
          else 0) ∧
     (with_layout_core state built al false oa).empty_right =
      (match built.getLast? with
        | none => 0
        | some (c, n) =>
          if c.collapse = false then
            (n.empty_right - c.padding_right) * (c.weight : ℚ) * (1 / (weightSum built : ℚ))
          else 0) ∧
     (with_layout_core state built al false oa).empty_top =
      (built.map (fun cn => cn.2.empty_top - cn.1.padding_top)).foldl min 1 ∧
     (with_layout_core state built al false oa).empty_bottom =
      (built.map (fun cn => cn.2.empty_bottom - cn.1.padding_bottom)).foldl min 1) ∧
    ((with_layout_core state built al true oa).empty_bottom =
      (match built with
        | [] => 0
        | (c, n) :: _ =>
          if c.collapse = false then
            (n.empty_bottom - c.padding_bottom) * (c.weight : ℚ) * (1 / (weightSum built : ℚ))
          else 0) ∧
     (with_layout_core state built al true oa).empty_top =
      (match built.getLast? with
        | none => 0
        | some (c, n) =>
          if c.collapse = false then
            (n.empty_top - c.padding_top) * (c.weight : ℚ) * (1 / (weightSum built : ℚ))
          else 0) ∧
     (with_layout_core state built al true oa).empty_left =
      (built.map (fun cn => cn.2.empty_left - cn.1.padding_left)).foldl min 1 ∧
     (with_layout_core state built al true oa).empty_right =
      (built.map (fun cn => cn.2.empty_right - cn.1.padding_right)).foldl min 1) ∧
    ((∀ cn ∈ built, (Prod.fst cn).collapse = true) →
      (with_layout_core state built al false oa).empty_left = 0 ∧
      (with_layout_core state built al false oa).empty_right = 0 ∧
      (with_layout_core state built al true oa).empty_bottom = 0 ∧
      (with_layout_core state built al true oa).empty_top = 0) := by
  have hmain :
      ((with_layout_core state built al false oa).empty_left =
        (match built with
          | [] => 0
          | (c, n) :: _ =>
            if c.collapse = false then
              (n.empty_left - c.padding_left) * (c.weight : ℚ) * (1 / (weightSum built : ℚ))
            else 0) ∧
       (with_layout_core state built al false oa).empty_right =
        (match built.getLast? with
          | none => 0
          | some (c, n) =>
            if c.collapse = false then
              (n.empty_right - c.padding_right) * (c.weight : ℚ) * (1 / (weightSum built : ℚ))
            else 0) ∧
       (with_layout_core state built al false oa).empty_top =
        (built.map (fun cn => cn.2.empty_top - cn.1.padding_top)).foldl min 1 ∧
       (with_layout_core state built al false oa).empty_bottom =
        (built.map (fun cn => cn.2.empty_bottom - cn.1.padding_bottom)).foldl min 1) ∧
      ((with_layout_core state built al true oa).empty_bottom =
        (match built with
          | [] => 0
          | (c, n) :: _ =>
            if c.collapse = false then
              (n.empty_bottom - c.padding_bottom) * (c.weight : ℚ) * (1 / (weightSum built : ℚ))
            else 0) ∧
       (with_layout_core state built al true oa).empty_top =
        (match built.getLast? with
          | none => 0
          | some (c, n) =>
            if c.collapse = false then
              (n.empty_top - c.padding_top) * (c.weight : ℚ) * (1 / (weightSum built : ℚ))
            else 0) ∧
       (with_layout_core state built al true oa).empty_left =
        (built.map (fun cn => cn.2.empty_left - cn.1.padding_left)).foldl min 1 ∧
       (with_layout_core state built al true oa).empty_right =
        (built.map (fun cn => cn.2.empty_right - cn.1.padding_right)).foldl min 1) := by
    constructor
    · refine ⟨?_, ?_, ?_, ?_⟩
      · simp only [with_layout_core, Node.empty_left_mk]
        rw [loop_left_h _ _ _ built 0]
        cases built <;> simp
      · simp only [with_layout_core, Node.empty_right_mk]
        rw [loop_right_h _ _ _ built 0 _ _ _ _ _ (by omega : 0 + built.length = built.length)]
        cases hlast : built.getLast? <;> simp
      · simp only [with_layout_core, Node.empty_top_mk]
        rw [loop_top_h _ _ _ built 0]
        norm_num
      · simp only [with_layout_core, Node.empty_bottom_mk]
        rw [loop_bottom_h _ _ _ built 0]
        norm_num
    · refine ⟨?_, ?_, ?_, ?_⟩
      · simp only [with_layout_core, Node.empty_bottom_mk]
        rw [loop_bottom_v _ _ _ built 0]
        cases built <;> simp
      · simp only [with_layout_core, Node.empty_top_mk]
        rw [loop_top_v _ _ _ built 0 _ _ _ _ _ (by omega : 0 + built.length = built.length)]
        cases hlast : built.getLast? <;> simp
      · simp only [with_layout_core, Node.empty_left_mk]
        rw [loop_left_v _ _ _ built 0]
        norm_num
      · simp only [with_layout_core, Node.empty_right_mk]
        rw [loop_right_v _ _ _ built 0]
        norm_num
  refine ⟨hmain.1, hmain.2, ?_⟩
  intro hall
  refine ⟨?_, ?_, ?_, ?_⟩
  · rw [hmain.1.1]
    cases built with
    | nil => rfl
    | cons hd tl => simp [hall hd (List.mem_cons_self hd tl)]
  · rw [hmain.1.2.1]
    cases hlast : built.getLast? with
    | none => rfl
    | some cn =>
        obtain ⟨_, heq⟩ := List.mem_getLast?_eq_getLast hlast
        have hmem : cn ∈ built := heq ▸ List.getLast_mem _
        simp [hall cn hmem]
  · rw [hmain.2.1]
    cases built with
    | nil => rfl
    | cons hd tl => simp [hall hd (List.mem_cons_self hd tl)]
  · rw [hmain.2.2.1]
    cases hlast : built.getLast? with
    | none => rfl
    | some cn =>
        obtain ⟨_, heq⟩ := List.mem_getLast?_eq_getLast hlast
        have hmem : cn ∈ built := heq ▸ List.getLast_mem _
        simp [hall cn hmem]

/-- C2 counterexample: in a horizontal bar whose FIRST child collapses,
the code reports a zero left margin, while the claim's "first and last
non-collapsed child" rule predicts the second (first non-collapsed)
child's scaled margin, 1/4. -/
theorem claim_C2_first_collapsed_counterexample :
    (with_layout_core fullWidget builtFirstCollapsed Alignment.default false false).empty_left
      = 0 ∧
    specFlowStartMargin false builtFirstCollapsed = 1/4 ∧
    (with_layout_core fullWidget builtFirstCollapsed Alignment.default false false).empty_left
      ≠ specFlowStartMargin false builtFirstCollapsed := by
  refine ⟨?_, ?_, ?_⟩ <;>
  norm_num [with_layout_core, layoutLoop, specFlowStartMargin, builtFirstCollapsed,
    plainNode, weightSum, requiredPerp, scaleRatio, flowEmptyAmount, perpEmptyAmount,
    flow_effective_percentage, flowStart, List.find?, Node.empty_left_mk,
    Child.collapse, Child.weight, Child.padding_left, Child.padding_right,
    Child.padding_top, Child.padding_bottom, Node.empty_left, Node.empty_right,
    Node.empty_top, Node.empty_bottom, Alignment.default]

/-- C2 witness: a fully collapsed one-child bar reports zero flow-axis
margins on both orientations. -/
theorem claim_C2_margin_witness :
    (with_layout_core fullWidget builtAllCollapsed Alignment.default false false).empty_left = 0 ∧
    (with_layout_core fullWidget builtAllCollapsed Alignment.default false false).empty_right = 0 ∧
    (with_layout_core fullWidget builtAllCollapsed Alignment.default true false).empty_bottom = 0 ∧
    (with_layout_core fullWidget builtAllCollapsed Alignment.default true false).empty_top = 0 :=
  (claim_C2_bar_margin_formulas fullWidget builtAllCollapsed Alignment.default false).2.2
    (by intro cn hcn
        rcases List.mem_singleton.mp hcn with rfl
        rfl)

/-! ### C3: occupied flow fractions sum to one -/

theorem foldl_add_q : ∀ (L : List ℚ) (a : ℚ), L.foldl (· + ·) a = a + L.sum
  | [], a => by simp
  | x :: rest, a => by
      simp only [List.foldl_cons, foldl_add_q rest, List.sum_cons]
      ring

theorem foldl_add_n : ∀ (L : List ℕ) (a : ℕ), L.foldl (· + ·) a = a + L.sum
  | [], a => by simp
  | x :: rest, a => by
      simp only [List.foldl_cons, foldl_add_n rest, List.sum_cons]
      omega

theorem weightSum_eq (built : List (Child × Node)) :
    weightSum built = (built.map (fun cn => cn.1.weight)).sum := by
  rw [weightSum, foldl_add_n]
  omega

theorem weightSum_pos (built : List (Child × Node)) (hne : built ≠ [])
    (hw : ∀ cn ∈ built, 1 ≤ (Prod.fst cn).weight) : 0 < weightSum built := by
  rw [weightSum_eq]
  cases built with
  | nil => exact absurd rfl hne
  | cons hd tl =>
      have h1 : 1 ≤ hd.1.weight := hw hd (List.mem_cons_self hd tl)
      simp only [List.map_cons, List.sum_cons]
      omega

theorem sum_flows (built : List (Child × Node)) (hpos : 0 < weightSum built) :
    (built.map (fun cn => (cn.1.weight : ℚ) * (1 / (weightSum built : ℚ)))).sum = 1 := by
  rw [List.sum_map_mul_right]
  have hcast : (built.map (fun cn => (cn.1.weight : ℚ))).sum = (weightSum built : ℚ) := by
    rw [weightSum_eq, Nat.cast_list_sum, List.map_map]
    rfl
  rw [hcast]
  have hne : ((weightSum built : ℚ)) ≠ 0 := by
    exact_mod_cast Nat.pos_iff_ne_zero.mp hpos
  field_simp

/-- C3 (amended): for a nonempty bar all of whose children are
non-collapsed with weight at least 1, the children's occupied flow-axis
fractions sum to exactly 1 — whatever the weights — provided that, when
the bar requests perpendicular content alignment (`other_align`), every
child's perpendicular empty amount lies in [0, 2), i.e. the child has
some perpendicular content.  (The claim's zero-padding case is subsumed:
padding only enters through the perpendicular empty amounts.) -/
theorem claim_C3_occupied_sum_one (v oa : Bool) (built : List (Child × Node))
    (hne : built ≠ [])
    (hcol : ∀ cn ∈ built, (Prod.fst cn).collapse = false)
    (hw : ∀ cn ∈ built, 1 ≤ (Prod.fst cn).weight)
    (hperp : oa = true → ∀ cn ∈ built,
      0 ≤ perpEmptyAmount v cn.1 cn.2 ∧ perpEmptyAmount v cn.1 cn.2 < 2) :
    (barOccupiedFractions v oa built).sum = 1 := by
  have hpos := weightSum_pos built hne hw
  set W : ℚ := (weightSum built : ℚ) with hW
  have hWpos : 0 < W := by rw [hW]; exact_mod_cast hpos
  set wsi : ℚ := 1 / W with hwsi
  have hwsipos : 0 < wsi := by rw [hwsi]; positivity
  cases oa with
  | false =>
      have : barOccupiedFractions v false built =
          built.map (fun cn => (cn.1.weight : ℚ) * wsi) := by
        simp only [barOccupiedFractions, occupiedFlowFractions, Bool.false_eq_true, if_false]
        apply List.map_congr_left
        intro cn hcn
        simp only [hcol cn hcn, scaleRatio, Bool.false_eq_true, if_false]
        rw [hwsi, hW]
        ring
      rw [this]
      exact sum_flows built hpos
  | true =>
      set perp : Child × Node → ℚ :=
        fun cn => (1/2) * (2 - perpEmptyAmount v cn.1 cn.2) with hperpdef
      have hperp01 : ∀ cn ∈ built, 0 < perp cn ∧ perp cn ≤ 1 := by
        intro cn hcn
        obtain ⟨h0, h2⟩ := hperp rfl cn hcn
        constructor <;> simp only [hperpdef] <;> linarith
      set S : ℚ := (built.map (fun cn => (cn.1.weight : ℚ) * wsi / perp cn)).sum with hS
      have hS' : (built.map (fun cn =>
          (cn.1.weight : ℚ) * wsi * (1/2) *
            (2 - if cn.1.collapse = true then flowEmptyAmount v cn.1 cn.2 else 0) /
          ((1/2) * (2 - perpEmptyAmount v cn.1 cn.2)))).sum = S := by
        rw [hS]
        congr 1
        apply List.map_congr_left
        intro cn hcn
        simp only [hcol cn hcn, Bool.false_eq_true, if_false]
        ring
      have hSge : 1 ≤ S := by
        have h1 : (built.map (fun cn => (cn.1.weight : ℚ) * wsi)).sum = 1 := sum_flows built hpos
        rw [← h1, hS]
        apply List.sum_le_sum
        intro cn hcn
        obtain ⟨hp0, hp1⟩ := hperp01 cn hcn
        have hflow0 : 0 ≤ (cn.1.weight : ℚ) * wsi := by positivity
        rw [le_div_iff₀ hp0]
        exact mul_le_of_le_one_right hflow0 hp1
      have hSne : S ≠ 0 := by linarith
      have hreq : requiredPerp v wsi built = 1 / S := by
        rw [requiredPerp]
        rw [foldl_add_q]
        simp only [zero_add]
        rw [show (built.map (fun cn =>
            (cn.1.weight : ℚ) * wsi * (1/2) *
              (2 - if cn.1.collapse = true then flowEmptyAmount v cn.1 cn.2 else 0) /
            ((1/2) * (2 - perpEmptyAmount v cn.1 cn.2)))).sum = S from hS']
        split
        · next h =>
            have : 1 / S ≤ 1 := by
              rw [div_le_one (by linarith)]
              linarith
            linarith [this, h]
        · rfl
      have hocc : barOccupiedFractions v true built =
          built.map (fun cn => (1 / S) * ((cn.1.weight : ℚ) * wsi / perp cn)) := by
        simp only [barOccupiedFractions, occupiedFlowFractions, if_true]
        apply List.map_congr_left
        intro cn hcn
        simp only [hcol cn hcn, scaleRatio, Bool.false_eq_true, if_false]
        rw [show requiredPerp v (1 / (weightSum built : ℚ)) built = 1 / S by
          rw [← hreq, hwsi, hW]]
        simp only [hperpdef]
        ring
      rw [hocc, List.sum_map_mul_left, ← hS]
      field_simp

/-- C3 counterexample: a bar with perpendicular content alignment and a
single non-collapsed, zero-padding, weight-1 child whose node is fully
empty (e.g. a `predefined::Empty` child): the child's perpendicular
content percentage is 0 and the source divides by it (yielding a
non-finite float; total rational division yields 0 in this model), so
the occupied fractions sum to 0, not 1. -/
theorem claim_C3_empty_perp_counterexample :
    (barOccupiedFractions false true builtEmptyChild).sum = 0 ∧
    (barOccupiedFractions false true builtEmptyChild).sum ≠ 1 := by
  constructor <;>
  norm_num [barOccupiedFractions, occupiedFlowFractions, requiredPerp, weightSum,
    scaleRatio, flowEmptyAmount, perpEmptyAmount, builtEmptyChild, plainNode,
    Child.collapse, Child.weight, Child.padding_left, Child.padding_right,
    Child.padding_top, Child.padding_bottom, Node.empty_left_mk, Node.empty_right_mk,
    Node.empty_top_mk, Node.empty_bottom_mk]

/-- C3 witness: the two-child bar with weights 1 and 3, perpendicular
content alignment on, occupies exactly the whole flow axis. -/
theorem claim_C3_sum_witness :
    (barOccupiedFractions false true builtTwoPlain).sum = 1 :=
  claim_C3_occupied_sum_one false true builtTwoPlain
    (by simp [builtTwoPlain])
    (by intro cn hcn
        rcases List.mem_cons.mp hcn with rfl | hcn'
        · rfl
        · rcases List.mem_singleton.mp hcn' with rfl; rfl)
    (by intro cn hcn
        rcases List.mem_cons.mp hcn with rfl | hcn'
        · norm_num [Child.weight]
        · rcases List.mem_singleton.mp hcn' with rfl; norm_num [Child.weight])
    (by intro _ cn hcn
        rcases List.mem_cons.mp hcn with rfl | hcn'
        · norm_num [perpEmptyAmount, plainNode, Child.padding_top, Child.padding_bottom,
            Node.empty_top_mk, Node.empty_bottom_mk]
        · rcases List.mem_singleton.mp hcn' with rfl
          norm_num [perpEmptyAmount, plainNode, Child.padding_top, Child.padding_bottom,
            Node.empty_top_mk, Node.empty_bottom_mk])

/-! ### C6 and C7: the dispatch log of `mouse_update` -/

theorem noneEntriesAt_append (l1 l2 : List Entry) (p : List ℕ) :
    noneEntriesAt (l1 ++ l2) p = noneEntriesAt l1 p ++ noneEntriesAt l2 p := by
  simp [noneEntriesAt, List.filterMap_append]

theorem noneEntriesAt_prefixed_nil (i : ℕ) (log : List Entry) :
    noneEntriesAt (log.map fun e => ⟨i :: e.path, e.child_num, e.event⟩) [] = [] := by
  induction log with
  | nil => rfl
  | cons e rest ih => simp [noneEntriesAt, List.filterMap_cons, ih]

theorem noneEntriesAt_prefixed_cons (i j : ℕ) (p : List ℕ) (log : List Entry) :
    noneEntriesAt (log.map fun e => ⟨i :: e.path, e.child_num, e.event⟩) (j :: p) =
      if i = j then noneEntriesAt log p else [] := by
  induction log with
  | nil => simp [noneEntriesAt]
  | cons e rest ih =>
      by_cases hij : i = j
      · subst hij
        simp only [if_pos rfl] at ih ⊢
        simp only [List.map_cons, noneEntriesAt, List.filterMap_cons] at ih ⊢
        by_cases hc : e.path = p ∧ e.child_num = none
        · have h1 : (i :: e.path = i :: p) ∧ e.child_num = none := by simp [hc.1, hc.2]
          simp only [h1.1, h1.2]
          simp only [hc.1, hc.2]
          simp [ih]
        · have h1 : ¬ ((i :: e.path = i :: p) ∧ e.child_num = none) := by
            simp only [List.cons.injEq, true_and]
            exact fun h => hc ⟨h.1, h.2⟩
          rw [if_neg h1, if_neg hc]
          exact ih
      · simp only [if_neg hij] at ih ⊢
        simp only [List.map_cons, noneEntriesAt, List.filterMap_cons] at ih ⊢
        have h1 : ¬ ((i :: e.path = j :: p) ∧ e.child_num = none) := by
          simp only [List.cons.injEq]
          exact fun h => hij h.1.1
        rw [if_neg h1]
        exact ih

theorem walker_noneEntries_nil :
    ∀ (ch : Children) (mouse : Option (ℚ × ℚ)) (matrix : Matrix) (num : ℕ) (nd od : Bool),
      noneEntriesAt (Children.mouse_update_children ch mouse matrix num nd od).2.2 [] = []
  | .nil, _, _, _, _, _ => rfl
  | .cons cm c rest, mouse, matrix, num, nd, od => by
      simp only [Children.mouse_update_children]
      rw [noneEntriesAt_append, noneEntriesAt_prefixed_nil,
        walker_noneEntries_nil rest mouse matrix (num + 1) nd od]
      rfl

theorem walker_noneEntries_lt :
    ∀ (ch : Children) (mouse : Option (ℚ × ℚ)) (matrix : Matrix) (num : ℕ) (nd od : Bool)
      (i : ℕ) (p : List ℕ), i < num →
      noneEntriesAt (Children.mouse_update_children ch mouse matrix num nd od).2.2 (i :: p) = []
  | .nil, _, _, _, _, _, _, _, _ => rfl
  | .cons cm c rest, mouse, matrix, num, nd, od, i, p, hlt => by
      simp only [Children.mouse_update_children]
      rw [noneEntriesAt_append, noneEntriesAt_prefixed_cons,
        walker_noneEntries_lt rest mouse matrix (num + 1) nd od i p (by omega)]
      have : ¬ (num = i) := by omega
      simp [this]

theorem walker_noneEntries_at :
    ∀ (ch : Children) (mouse : Option (ℚ × ℚ)) (matrix : Matrix) (num : ℕ) (nd od : Bool)
      (i : ℕ) (p : List ℕ),
      noneEntriesAt (Children.mouse_update_children ch mouse matrix num nd od).2.2
          ((num + i) :: p) =
        (match ch.nth i with
          | some (cm, c) =>
              noneEntriesAt (Node.mouse_update c mouse (matrix * cm) nd od).2.2 p
          | none => [])
  | .nil, _, _, _, _, _, i, _ => by cases i <;> rfl
  | .cons cm c rest, mouse, matrix, num, nd, od, i, p => by
      simp only [Children.mouse_update_children]
      rw [noneEntriesAt_append, noneEntriesAt_prefixed_cons]
      cases i with
      | zero =>
          rw [walker_noneEntries_lt rest mouse matrix (num + 1) nd od (num + 0) p (by omega)]
          simp [Children.nth]
      | succ i' =>
          have harith : num + (i' + 1) = (num + 1) + i' := by omega
          rw [harith, walker_noneEntries_at rest mouse matrix (num + 1) nd od i' p]
          have : ¬ (num = (num + 1) + i') := by omega
          simp [this, Children.nth]

theorem deliver_noneEntries (w : Widget) :
    ∀ (evs : List (Event × ℕ)) (p : List ℕ),
      noneEntriesAt (deliver_to_self w evs).2.2 p = []
  | [], _ => rfl
  | (ev, num) :: rest, p => by
      simp only [deliver_to_self, noneEntriesAt, List.filterMap_cons]
      have h1 : ¬ ((⟨[], some num, ev⟩ : Entry).path = p ∧
          (⟨[], some num, ev⟩ : Entry).child_num = none) := by simp
      rw [if_neg h1]
      exact deliver_noneEntries w rest p

/-- The central dispatch-log lemma: during one `mouse_update` pass the
events delivered to the node at path `p` itself (child tag `None`) are
exactly the engine-generated hover event and, when the click condition
holds, the click — computed from that node's own shapes under the
composed ancestor matrix. -/
theorem mouse_update_noneEntries :
    ∀ (p : List ℕ) (n : Node) (mouse : Option (ℚ × ℚ)) (matrix : Matrix) (nd od : Bool)
      (cm : Matrix) (sub : Node), n.getAt p matrix = some (cm, sub) →
      noneEntriesAt (n.mouse_update mouse matrix nd od).2.2 p =
        engineEvents sub.shapes mouse cm nd od
  | [], n, mouse, matrix, nd, od, cm, sub, h => by
      simp only [Node.getAt, Option.some.injEq, Prod.mk.injEq] at h
      obtain ⟨hcm, hsub⟩ := h
      subst hcm; subst hsub
      cases n with
      | mk w ch sh nr t r b l =>
          simp only [Node.mouse_update]
          rw [noneEntriesAt_append, noneEntriesAt_append, noneEntriesAt_append,
            walker_noneEntries_nil, deliver_noneEntries]
          simp only [engineEvents, Node.shapes, List.nil_append]
          by_cases hit : shapesHit sh mouse matrix
          · simp only [hit]
            by_cases hclick : (!nd && od) = true
            · simp [noneEntriesAt, hit, hclick]
            · simp [noneEntriesAt, hit, hclick]
          · simp only [Bool.not_eq_true] at hit
            simp [noneEntriesAt, hit]
  | i :: p', n, mouse, matrix, nd, od, cm, sub, h => by
      cases n with
      | mk w ch sh nr t r b l =>
          simp only [Node.getAt, Node.children] at h
          cases hnth : (Node.mk w ch sh nr t r b l).children.nth i with
          | none => simp only [Node.children] at hnth; rw [hnth] at h; simp at h
          | some mcnode =>
              obtain ⟨ccm, c⟩ := mcnode
              simp only [Node.children] at hnth
              rw [hnth] at h
              have h' : c.getAt p' (matrix * ccm) = some (cm, sub) := h
              simp only [Node.mouse_update]
              rw [noneEntriesAt_append, noneEntriesAt_append, noneEntriesAt_append]
              rw [show ((i : ℕ) :: p') = ((0 + i) :: p') from by rw [Nat.zero_add]]
              rw [walker_noneEntries_at ch mouse matrix 0 nd od i p']
              simp only [Nat.zero_add]
              rw [hnth, deliver_noneEntries]
              have hhover : noneEntriesAt [(⟨[], none,
                  if shapesHit sh mouse matrix then Event.mouseEnterEvent
                  else Event.mouseLeaveEvent⟩ : Entry)] (i :: p') = [] := by
                simp [noneEntriesAt]
              have hclick : noneEntriesAt
                  (if (shapesHit sh mouse matrix && !nd && od) = true then
                    [(⟨[], none, Event.mouseClick⟩ : Entry)] else []) (i :: p') = [] := by
                split <;> simp [noneEntriesAt]
              simp only [mouse_update_noneEntries p' c mouse (matrix * ccm) nd od cm sub h',
                hhover, hclick]
              simp

theorem isHover_click : isHoverEvent Event.mouseClick = false := rfl

theorem isHover_enter : isHoverEvent Event.mouseEnterEvent = true := rfl

theorem isHover_leave : isHoverEvent Event.mouseLeaveEvent = true := rfl

/-- C6: on every cursor sample, every node of the tree (every valid path)
is delivered exactly one hover event addressed to it — "mouse entered"
iff the cursor hits one of the node's own terminal shapes under the
composed ancestor transform, "mouse left" otherwise — independently of
any previous hover state (the statement holds for every sample's
arguments). -/
theorem claim_C6_one_hover_event_per_node (n : Node) (mouse : Option (ℚ × ℚ))
    (matrix : Matrix) (nd od : Bool) (p : List ℕ) (cm : Matrix) (sub : Node)
    (h : n.getAt p matrix = some (cm, sub)) :
    (noneEntriesAt (n.mouse_update mouse matrix nd od).2.2 p).filter isHoverEvent =
      [if shapesHit sub.shapes mouse cm then Event.mouseEnterEvent
       else Event.mouseLeaveEvent] := by
  rw [mouse_update_noneEntries p n mouse matrix nd od cm sub h]
  simp only [engineEvents]
  by_cases hit : shapesHit sub.shapes mouse cm
  · by_cases hc : (!nd && od) = true
    · simp [hit, hc, isHover_click, isHover_enter]
    · simp [hit, hc, isHover_enter]
  · simp only [Bool.not_eq_true] at hit
    simp [hit, isHover_leave]

/-- C6 witness: the single-shape tree at the root path, cursor over the
shape. -/
theorem claim_C6_witness :
    (noneEntriesAt ((Node.new 1 fullWidget 1 ⟨.center, .center⟩).mouse_update
        (some (0, 0)) Matrix.identity false true).2.2 []).filter isHoverEvent =
      [if shapesHit (Node.new 1 fullWidget 1 ⟨.center, .center⟩).shapes
          (some (0, 0)) Matrix.identity then Event.mouseEnterEvent
       else Event.mouseLeaveEvent] :=
  claim_C6_one_hover_event_per_node (Node.new 1 fullWidget 1 ⟨.center, .center⟩)
    (some (0, 0)) Matrix.identity false true [] Matrix.identity
    (Node.new 1 fullWidget 1 ⟨.center, .center⟩) rfl

theorem deliver_child_num (w : Widget) :
    ∀ evs, ∀ e ∈ (deliver_to_self w evs).2.2, e.child_num ≠ none
  | [] => by intro e he; simp [deliver_to_self] at he
  | (ev, num) :: rest => by
      intro e he
      simp only [deliver_to_self, List.mem_cons] at he
      rcases he with rfl | he
      · simp
      · exact deliver_child_num w rest e he

mutual

theorem none_no_click_node : ∀ (n : Node) (matrix : Matrix) (nd od : Bool),
    ∀ e ∈ (n.mouse_update none matrix nd od).2.2,
      e.child_num = none → e.event ≠ Event.mouseClick
  | .mk w ch sh nr t r b l, matrix, nd, od => by
      intro e he hcn
      have hhit : shapesHit sh none matrix = false := rfl
      simp only [Node.mouse_update, hhit, Bool.false_and, Bool.false_eq_true, if_false,
        List.append_nil, List.mem_append, List.mem_singleton] at he
      rcases he with (hwalk | hdeliver) | rfl
      · exact none_no_click_children ch matrix 0 nd od e hwalk hcn
      · exact absurd hcn (deliver_child_num w _ e hdeliver)
      · simp

theorem none_no_click_children : ∀ (ch : Children) (matrix : Matrix) (num : ℕ) (nd od : Bool),
    ∀ e ∈ (Children.mouse_update_children ch none matrix num nd od).2.2,
      e.child_num = none → e.event ≠ Event.mouseClick
  | .nil, _, _, _, _ => by intro e he; simp [Children.mouse_update_children] at he
  | .cons cm c rest, matrix, num, nd, od => by
      intro e he hcn
      simp only [Children.mouse_update_children, List.mem_append, List.mem_map] at he
      rcases he with ⟨e', he', rfl⟩ | he
      · exact none_no_click_node c (matrix * cm) nd od e' he' hcn
      · exact none_no_click_children rest matrix (num + 1) nd od e he hcn

end

/-- C7: when the cursor is set to the "outside viewport" marker (`None`),
the dispatch pass delivers exactly one "mouse left" event to every node
of the tree (in particular to every previously hovered one) and delivers
no click to any node, whatever the prior or current button state. -/
theorem claim_C7_outside_cursor_leave_no_click (u : UiState) (down : Bool)
    (p : List ℕ) (cm : Matrix) (sub : Node)
    (h : u.main_node.getAt p Matrix.identity = some (cm, sub)) :
    noneEntriesAt (Ui.set_cursor u none down).2 p = [Event.mouseLeaveEvent] ∧
    ∀ e ∈ (Ui.set_cursor u none down).2,
      e.child_num = none → e.event ≠ Event.mouseClick := by
  constructor
  · simp only [Ui.set_cursor]
    rw [mouse_update_noneEntries p u.main_node none Matrix.identity u.mouse_down down cm sub h]
    simp [engineEvents, shapesHit]
  · intro e he hcn
    simp only [Ui.set_cursor] at he
    exact none_no_click_node u.main_node Matrix.identity u.mouse_down down e he hcn

/-- C7 witness: the single-shape `Ui` after its press sample, cursor
moved outside. -/
theorem claim_C7_witness :
    noneEntriesAt (Ui.set_cursor leafUi none false).2 [] = [Event.mouseLeaveEvent] ∧
    ∀ e ∈ (Ui.set_cursor leafUi none false).2,
      e.child_num = none → e.event ≠ Event.mouseClick :=
  claim_C7_outside_cursor_leave_no_click leafUi false [] Matrix.identity
    leafUi.main_node rfl

end Eui
